import Mathlib

/-!
Verification development for the action canonicalization and signing
subsystem of the hyperliquid exchange client
(`src/exchange/exchange_client.rs`, `src/signature/agent.rs`).

The stateful Rust code is shallowly embedded as pure Lean functions.
Wall-clock reads (`now_timestamp_ms`) are modelled by an injected clock
stream `clock : Nat → Nat` together with an explicit read position, so a
call reading the clock at position `pos` obtains `clock pos` and advances
the position to `pos + 1`.  The HTTP transport is out of scope: an
operation that reaches `post` is modelled as returning the fully
assembled `ExchangePayload` envelope; an operation that fails beforehand
returns the error, and no envelope (hence no network submission) exists.
-/

namespace Hyperliquid

/-- An H160 address.  `raw n` is an ordinary 160-bit address value;
`derived k` is the address deterministically derived from the private
key `k` (secp256k1 public-key derivation is external to this repository,
so it is kept abstract as a constructor). -/
inductive Address where
  | raw (n : Nat)
  | derived (key : Nat)
deriving DecidableEq, Repr

/-- The all-zero address, `H160::default()` in the source. -/
def Address.zero : Address := .raw 0

/-- An ethers `LocalWallet`: a secp256k1 private key. -/
structure LocalWallet where
  key : Nat
deriving DecidableEq, Repr

/-- `LocalWallet::address()`: deterministic address derivation. -/
def LocalWallet.address (w : LocalWallet) : Address := .derived w.key

/-- A value that can appear in a hash-input tuple passed to `keccak`:
the canonical, order-sensitive tuple representation of an action. -/
inductive HVal where
  | nat (n : Nat)
  | int (i : Int)
  | bool (b : Bool)
  | str (s : String)
  | addr (a : Address)
  | list (xs : List HVal)
  | tuple (xs : List HVal)
deriving Repr

/-- A 32-byte content hash ("connection id"). -/
structure ConnectionId where
  input : HVal
deriving Repr

/-- Modelled from the spec: `keccak` (in `helpers.rs`, not under `src/`)
is "a single deterministic content hash (32-byte output) over the exact
tuple structure"; it is modelled as the injective constructor of its
input tuple, which preserves exactly determinism and
input-distinguishability. -/
def keccak (x : HVal) : ConnectionId := ⟨x⟩

/-- Modelled from the spec: `ChainType` (in `helpers.rs`, not under
`src/`), the network selector with the two variants used by the client. -/
inductive ChainType where
  | HyperliquidMainnet
  | HyperliquidTestnet
deriving DecidableEq, Repr

/-- Modelled from the spec: `MAINNET_API_URL` (in `consts.rs`, not under
`src/`), "a single known mainnet constant" base URL; network selection
only compares the configured base URL against it for equality. -/
def MAINNET_API_URL : String := "https://api.hyperliquid.xyz"

/-- An EIP-712 typed-data signing domain. -/
structure Eip712Domain where
  name : String
  version : String
  chain_id : Nat
  verifying_contract : Address
deriving DecidableEq, Repr

/-- The domain of `signature::agent::l1::Agent` (from `agent.rs`). -/
def agent_l1_domain : Eip712Domain :=
  { name := "Exchange", version := "1", chain_id := 1337,
    verifying_contract := Address.zero }

/-- The domain of `signature::agent::mainnet::Agent` (from `agent.rs`). -/
def agent_mainnet_domain : Eip712Domain :=
  { name := "Exchange", version := "1", chain_id := 42161,
    verifying_contract := Address.zero }

/-- The domain of `signature::agent::testnet::Agent` (from `agent.rs`). -/
def agent_testnet_domain : Eip712Domain :=
  { name := "Exchange", version := "1", chain_id := 421613,
    verifying_contract := Address.zero }

/-- The `Agent` typed-data struct shared by the three domains of
`agent.rs`: `{ source: String, connection_id: H256 }`. -/
structure Agent where
  source : String
  connection_id : ConnectionId
deriving Repr

/-- The typed structure covered by a signature. -/
inductive SigPayload where
  /-- the `Agent` struct signed for generic L1 actions -/
  | l1Agent (a : Agent)
  /-- the `HyperliquidTransaction:UsdTransfer {destination, amount, time}`
  typed structure -/
  | usdTransfer (destination : String) (amount : String) (time : Nat)
  /-- the `Agent` struct signed (by the real wallet) for agent connection -/
  | agentConnect (a : Agent)
deriving Repr

/-- A recoverable secp256k1 signature.  Signing is pure and deterministic
given `(private key, message, domain)`, so a signature is modelled by the
exact data it is a deterministic function of. -/
structure Signature where
  wallet : LocalWallet
  domain : Eip712Domain
  payload : SigPayload
deriving Repr

/-- Errors surfaced by the exchange client (variants of `Error` used in
`exchange_client.rs`). -/
inductive Error where
  | AssetNotFound
  | JsonParse (msg : String)
  | PrivateKeyParse (msg : String)
deriving DecidableEq, Repr

/-- Modelled from the spec: `sign_l1_action` (in `signature/`, not under
`src/`).  Its call sites in `exchange_client.rs` pass only
`(wallet, connection_id)` — no network information — so it signs the
fixed-domain `l1::Agent` struct of `agent.rs` (chain id 1337) with the
network tag source `"a"`, per spec 4.3's "Domain-hash signing":
"sign a fixed-domain typed structure `Agent{source, connectionId}`". -/
def sign_l1_action (wallet : LocalWallet) (connection_id : ConnectionId) :
    Except Error Signature :=
  .ok { wallet, domain := agent_l1_domain,
        payload := .l1Agent { source := "a", connection_id } }

/-- Modelled from the spec: the USD-transfer typed-data domain chain id
(in `signature/usdc_transfer.rs`, not under `src/`): "domain chain id is
42161 (mainnet) or a distinct testnet chain id". -/
def usd_transfer_domain : ChainType → Eip712Domain
  | .HyperliquidMainnet =>
    { name := "HyperliquidTransaction", version := "1", chain_id := 42161,
      verifying_contract := Address.zero }
  | .HyperliquidTestnet =>
    { name := "HyperliquidTransaction", version := "1", chain_id := 421613,
      verifying_contract := Address.zero }

/-- Modelled from the spec: `sign_usd_transfer_action` (not under
`src/`): "for USD transfer, sign a typed structure
`HyperliquidTransaction:UsdTransfer{destination, amount, time}` whose
domain chain id is 42161 (mainnet) or a distinct testnet chain id". -/
def sign_usd_transfer_action (wallet : LocalWallet) (chain : ChainType)
    (amount : String) (destination : String) (timestamp : Nat) :
    Except Error Signature :=
  .ok { wallet, domain := usd_transfer_domain chain,
        payload := .usdTransfer destination amount timestamp }

/-- The network-selected `Agent` domain of `agent.rs` used for
agent-connection signing. -/
def agent_domain : ChainType → Eip712Domain
  | .HyperliquidMainnet => agent_mainnet_domain
  | .HyperliquidTestnet => agent_testnet_domain

/-- Modelled from the spec: `sign_with_agent` (not under `src/`): "sign
the `Agent` typed structure using the real wallet with a `source` field
set to a fixed service URL", under the network-selected `Agent` domain
of `agent.rs`. -/
def sign_with_agent (wallet : LocalWallet) (chain : ChainType)
    (source : String) (connection_id : ConnectionId) :
    Except Error Signature :=
  .ok { wallet, domain := agent_domain chain,
        payload := .agentConnect { source, connection_id } }

/-- Modelled from the spec: `ClientOrderRequest` (in `exchange/order.rs`,
not under `src/`): a user-supplied order referencing its asset by symbol,
with "side, price, size, order-type parameters, optional client order
id". -/
structure ClientOrderRequest where
  asset : String
  is_buy : Bool
  limit_px : String
  sz : String
  order_type : String
  cloid : Option String
deriving Repr

/-- The wire-level order with the symbol resolved to its asset index. -/
structure OrderRequest where
  asset : Nat
  is_buy : Bool
  limit_px : String
  sz : String
  order_type : String
  cloid : Option String
deriving Repr

/-- Modelled from the spec: `ClientOrderRequest::create_hashable_tuple`
(not under `src/`): "for each order, produce a canonical tuple of its
fields (asset index, side, price, size, order-type parameters, optional
client order id) in a fixed field order"; "an unresolved symbol ...
fails with `AssetNotFound`". -/
def ClientOrderRequest.create_hashable_tuple (o : ClientOrderRequest)
    (coin_to_asset : String → Option Nat) : Except Error HVal :=
  match coin_to_asset o.asset with
  | none => .error .AssetNotFound
  | some idx =>
    .ok (.tuple ([.nat idx, .bool o.is_buy, .str o.limit_px, .str o.sz,
                  .str o.order_type] ++
      (match o.cloid with | none => [] | some cl => [.str cl])))

/-- Modelled from the spec: `ClientOrderRequest::convert` (not under
`src/`): resolve the symbol to its asset index and produce the
wire-level order; fails with `AssetNotFound` on an unresolved symbol. -/
def ClientOrderRequest.convert (o : ClientOrderRequest)
    (coin_to_asset : String → Option Nat) : Except Error OrderRequest :=
  match coin_to_asset o.asset with
  | none => .error .AssetNotFound
  | some idx =>
    .ok { asset := idx, is_buy := o.is_buy, limit_px := o.limit_px,
          sz := o.sz, order_type := o.order_type, cloid := o.cloid }

/-- `ClientCancelRequest` (fields as used by `bulk_cancel` in
`exchange_client.rs`): the cancelled order's symbol and order id. -/
structure ClientCancelRequest where
  asset : String
  oid : Nat
deriving Repr

/-- `CancelRequest` (in `exchange/cancel.rs`): the wire-level cancel,
with the symbol resolved to its asset index. -/
structure CancelRequest where
  asset : Nat
  oid : Nat
deriving Repr

/-- `UsdTransferSignPayload`: `{destination, amount, time}`. -/
structure UsdTransferSignPayload where
  destination : String
  amount : String
  time : Nat
deriving Repr

/-- The `Actions` enum of `exchange_client.rs`: the tagged action value
placed in the submitted envelope. -/
inductive Actions where
  | usdTransfer (chain : String) (payload : UsdTransferSignPayload)
  | updateLeverage (asset : Nat) (is_cross : Bool) (leverage : Nat)
  | updateIsolatedMargin (asset : Nat) (is_buy : Bool) (ntli : Int)
  | order (grouping : String) (orders : List OrderRequest)
  | cancel (cancels : List CancelRequest)
  | connect (chain : String) (agent : Agent) (agent_address : Address)
deriving Repr

/-- `ExchangePayload`: the signed envelope handed to the transport. -/
structure ExchangePayload where
  action : Actions
  signature : Signature
  nonce : Nat
  vault_address : Option Address
deriving Repr

/-- `Asset` entry of `Meta.universe`: an instrument record; only its
symbol (`name`) is read by the client. -/
structure Asset where
  name : String
deriving DecidableEq, Repr

/-- `HttpClient` (interface boundary only): the configured base URL. -/
structure HttpClient where
  base_url : String
deriving Repr

/-- `ExchangeClient`: the read-only state established at construction. -/
structure ExchangeClient where
  http_client : HttpClient
  wallet : LocalWallet
  meta : List Asset
  vault_address : Option Address
  coin_to_asset : String → Option Nat

/-- `HashMap::insert` on the functional map model: a later insert for
the same key overwrites the earlier binding. -/
def insertMap (m : String → Option Nat) (k : String) (v : Nat) :
    String → Option Nat :=
  fun k' => if k' = k then some v else m k'

/-- The construction loop of `ExchangeClient::new`:
`for (asset_ind, asset) in meta.universe.iter().enumerate() {
   coin_to_asset.insert(asset.name.clone(), asset_ind as u32); }`. -/
def buildCoinToAsset (univ : List Asset) : String → Option Nat :=
  univ.enum.foldl
    (fun m p => insertMap m p.2.name (p.1 % 2 ^ 32)) (fun _ => none)

/-- `ExchangeClient::new` (the pure part: metadata already fetched):
defaults the base URL to `MAINNET_API_URL` and builds the symbol-to-index
map once from the universe's enumeration order. -/
def ExchangeClient.new (wallet : LocalWallet) (base_url : Option String)
    (meta : List Asset) (vault_address : Option Address) : ExchangeClient :=
  let base_url := base_url.getD MAINNET_API_URL
  { wallet, meta, vault_address,
    http_client := { base_url },
    coin_to_asset := buildCoinToAsset meta }

/-- `ExchangeClient::post`: assembles the envelope submitted to the
`/exchange` endpoint.  Producing this value models the network
submission; transport and response parsing are out of scope. -/
def ExchangeClient.post (c : ExchangeClient) (action : Actions)
    (signature : Signature) (nonce : Nat) : ExchangePayload :=
  { action, signature, nonce, vault_address := c.vault_address }

/-- The per-order loop of `bulk_order`: for each order push its hashable
tuple and its converted wire form; the first failure aborts the batch. -/
def buildOrderBatch (m : String → Option Nat) :
    List ClientOrderRequest → Except Error (List HVal × List OrderRequest)
  | [] => .ok ([], [])
  | o :: rest =>
    match o.create_hashable_tuple m with
    | .error e => .error e
    | .ok t =>
      match o.convert m with
      | .error e => .error e
      | .ok tr =>
        match buildOrderBatch m rest with
        | .error e => .error e
        | .ok (ts, trs) => .ok (t :: ts, tr :: trs)

/-- `ExchangeClient::bulk_order`.  `clock`/`pos` model
`now_timestamp_ms`; the returned position counts the reads performed. -/
def ExchangeClient.bulk_order (c : ExchangeClient)
    (orders : List ClientOrderRequest) (clock : Nat → Nat) (pos : Nat) :
    Except Error ExchangePayload × Nat :=
  let timestamp := clock pos
  let pos := pos + 1
  let vault_address := c.vault_address.getD Address.zero
  match buildOrderBatch c.coin_to_asset orders with
  | .error e => (.error e, pos)
  | .ok (hashable_tuples, transformed_orders) =>
    let connection_id := keccak (.tuple [.list hashable_tuples, .nat 0,
      .addr vault_address, .nat timestamp])
    let action := Actions.order "na" transformed_orders
    match sign_l1_action c.wallet connection_id with
    | .error e => (.error e, pos)
    | .ok signature => (.ok (c.post action signature timestamp), pos)

/-- `ExchangeClient::order`: delegates to `bulk_order` on the singleton
batch. -/
def ExchangeClient.order (c : ExchangeClient) (o : ClientOrderRequest)
    (clock : Nat → Nat) (pos : Nat) : Except Error ExchangePayload × Nat :=
  c.bulk_order [o] clock pos

/-- The per-cancel loop of `bulk_cancel`: resolve the symbol (failing
with `AssetNotFound` when absent), push the wire-level cancel and the
hashable tuple `(asset, oid)`. -/
def buildCancelBatch (m : String → Option Nat) :
    List ClientCancelRequest → Except Error (List HVal × List CancelRequest)
  | [] => .ok ([], [])
  | cl :: rest =>
    match m cl.asset with
    | none => .error .AssetNotFound
    | some asset =>
      match buildCancelBatch m rest with
      | .error e => .error e
      | .ok (ts, trs) =>
        .ok (.tuple [.nat asset, .nat cl.oid] :: ts,
             { asset, oid := cl.oid } :: trs)

/-- `ExchangeClient::bulk_cancel`. -/
def ExchangeClient.bulk_cancel (c : ExchangeClient)
    (cancels : List ClientCancelRequest) (clock : Nat → Nat) (pos : Nat) :
    Except Error ExchangePayload × Nat :=
  let timestamp := clock pos
  let pos := pos + 1
  let vault_address := c.vault_address.getD Address.zero
  match buildCancelBatch c.coin_to_asset cancels with
  | .error e => (.error e, pos)
  | .ok (hashable_tuples, transformed_cancels) =>
    let connection_id := keccak (.tuple [.list hashable_tuples,
      .addr vault_address, .nat timestamp])
    let action := Actions.cancel transformed_cancels
    match sign_l1_action c.wallet connection_id with
    | .error e => (.error e, pos)
    | .ok signature => (.ok (c.post action signature timestamp), pos)

/-- `ExchangeClient::cancel`: delegates to `bulk_cancel` on the
singleton batch. -/
def ExchangeClient.cancel (c : ExchangeClient) (cl : ClientCancelRequest)
    (clock : Nat → Nat) (pos : Nat) : Except Error ExchangePayload × Nat :=
  c.bulk_cancel [cl] clock pos

/-- `ExchangeClient::usdc_transfer`. -/
def ExchangeClient.usdc_transfer (c : ExchangeClient)
    (amount : String) (destination : String) (clock : Nat → Nat)
    (pos : Nat) : Except Error ExchangePayload × Nat :=
  let chain_and_name :=
    if c.http_client.base_url = MAINNET_API_URL then
      (ChainType.HyperliquidMainnet, "Arbitrum")
    else
      (ChainType.HyperliquidTestnet, "ArbitrumGoerli")
  let timestamp := clock pos
  let pos := pos + 1
  let payload : UsdTransferSignPayload :=
    { destination, amount, time := timestamp }
  let action := Actions.usdTransfer chain_and_name.2 payload
  match sign_usd_transfer_action c.wallet chain_and_name.1 amount
      destination timestamp with
  | .error e => (.error e, pos)
  | .ok signature => (.ok (c.post action signature timestamp), pos)

/-- `ExchangeClient::update_leverage`. -/
def ExchangeClient.update_leverage (c : ExchangeClient) (leverage : Nat)
    (coin : String) (is_cross : Bool) (clock : Nat → Nat) (pos : Nat) :
    Except Error ExchangePayload × Nat :=
  let timestamp := clock pos
  let pos := pos + 1
  let vault_address := c.vault_address.getD Address.zero
  match c.coin_to_asset coin with
  | none => (.error .AssetNotFound, pos)
  | some asset_index =>
    let connection_id := keccak (.tuple [.nat asset_index,
      .bool is_cross, .nat leverage, .addr vault_address, .nat timestamp])
    let action := Actions.updateLeverage asset_index is_cross leverage
    match sign_l1_action c.wallet connection_id with
    | .error e => (.error e, pos)
    | .ok signature => (.ok (c.post action signature timestamp), pos)

/-- Rust `f64::round`: rounds half-way cases away from zero. -/
def roundHalfAwayFromZero (q : Rat) : Int :=
  if q < 0 then -⌊-q + 1 / 2⌋ else ⌊q + 1 / 2⌋

/-- Rust `as i64` cast from a float: saturates at the `i64` bounds. -/
def asI64 (i : Int) : Int := max (-(2 ^ 63)) (min (2 ^ 63 - 1) i)

/-- `ExchangeClient::update_isolated_margin`.  The user-facing `f64`
amount is modelled as an exact rational; the source computes
`(amount * 1_000_000.0).round() as i64`. -/
def ExchangeClient.update_isolated_margin (c : ExchangeClient)
    (amount : Rat) (coin : String) (clock : Nat → Nat) (pos : Nat) :
    Except Error ExchangePayload × Nat :=
  let amount := asI64 (roundHalfAwayFromZero (amount * 1000000))
  let timestamp := clock pos
  let pos := pos + 1
  let vault_address := c.vault_address.getD Address.zero
  match c.coin_to_asset coin with
  | none => (.error .AssetNotFound, pos)
  | some asset_index =>
    let connection_id := keccak (.tuple [.nat asset_index, .bool true,
      .int amount, .addr vault_address, .nat timestamp])
    let action := Actions.updateIsolatedMargin asset_index true amount
    match sign_l1_action c.wallet connection_id with
    | .error e => (.error e, pos)
    | .ok signature => (.ok (c.post action signature timestamp), pos)

/-- The lowercase hex digit for a value below 16. -/
def hexDigitChar (n : Nat) : Char :=
  if n < 10 then Char.ofNat (48 + n) else Char.ofNat (87 + n)

/-- `H256::from(key).encode_hex()`: `"0x"` followed by the 64-digit
fixed-width lowercase hex encoding of the 256-bit value. -/
def h256EncodeHex (k : Nat) : String :=
  "0x" ++ String.mk ((List.range 64).map
    (fun i => hexDigitChar (k / 16 ^ (63 - i) % 16)))

/-- The numeric value of a lowercase hex digit character. -/
def hexCharVal (ch : Char) : Nat :=
  if 97 ≤ ch.toNat then ch.toNat - 87 else ch.toNat - 48

/-- Modelled from the spec: `key.parse::<LocalWallet>()` (ethers,
external): reads the hex private-key string back into the wallet's
key. -/
def parseLocalWallet (s : String) : Except Error LocalWallet :=
  .ok ⟨s.data.foldl (fun acc ch => acc * 16 + hexCharVal ch) 0⟩

/-- `ExchangeClient::approve_agent`.  `random_key` models the 32 random
bytes produced by `generate_random_key` as a 256-bit value.  Note the
clock is read after signing, and the connection id hashes the derived
agent address alone. -/
def ExchangeClient.approve_agent (c : ExchangeClient) (random_key : Nat)
    (clock : Nat → Nat) (pos : Nat) :
    Except Error (String × ExchangePayload) × Nat :=
  let key := (h256EncodeHex random_key).drop 2
  match parseLocalWallet key with
  | .error e => (.error e, pos)
  | .ok wallet =>
    let address := wallet.address
    let connection_id := keccak (.addr address)
    let chain_and_name :=
      if c.http_client.base_url = MAINNET_API_URL then
        (ChainType.HyperliquidMainnet, "Arbitrum")
      else
        (ChainType.HyperliquidTestnet, "ArbitrumGoerli")
    let source := "https://hyperliquid.xyz"
    let action := Actions.connect chain_and_name.2
      { source, connection_id } address
    match sign_with_agent c.wallet chain_and_name.1 source connection_id with
    | .error e => (.error e, pos)
    | .ok signature =>
      let timestamp := clock pos
      (.ok (key, c.post action signature timestamp), pos + 1)

/-- The fixed-width hex digit list, most significant digit first. -/
def hexDigitsAux : Nat → Nat → List Char
  | 0, _ => []
  | w + 1, k => hexDigitChar (k / 16 ^ w % 16) :: hexDigitsAux w k

/-! ### Observers on hash inputs and signatures -/

/-- The vault-address slot of an L1 hash-input tuple: the second-to-last
element, immediately preceding the trailing timestamp. -/
def HVal.vaultSlot : HVal → Option Address
  | .tuple xs =>
    match xs.reverse with
    | _ :: .addr a :: _ => some a
    | _ => none
  | _ => none

/-- The trailing timestamp of an L1 hash-input tuple. -/
def HVal.lastNat : HVal → Option Nat
  | .tuple xs =>
    match xs.getLast? with
    | some (.nat n) => some n
    | _ => none
  | _ => none

/-- The vault-address slot of the connection id covered by an L1-action
signature. -/
def SigPayload.vaultSlot : SigPayload → Option Address
  | .l1Agent a => a.connection_id.input.vaultSlot
  | _ => none

/-- The timestamp covered by a signature: the trailing timestamp of an
L1 hash-input tuple, or the `time` field of the USD-transfer typed data;
the agent-connect payload carries no time field. -/
def SigPayload.timeField : SigPayload → Option Nat
  | .l1Agent a => a.connection_id.input.lastNat
  | .usdTransfer _ _ t => some t
  | .agentConnect _ => none

/-! ### Concrete fixtures for evaluation -/

/-- A concrete wallet. -/
def wWallet : LocalWallet := ⟨7⟩

/-- A concrete two-asset universe: `"BTC"` at index 0, `"ETH"` at 1. -/
def wMeta : List Asset := [{ name := "BTC" }, { name := "ETH" }]

/-- A constant clock. -/
def wClock : Nat → Nat := fun _ => 1234

/-- A concrete client configured against the mainnet base URL (the
default), with no vault configured. -/
def wClient : ExchangeClient := ExchangeClient.new wWallet none wMeta none

/-- A concrete order on the known symbol `"ETH"`. -/
def wOrder : ClientOrderRequest :=
  { asset := "ETH", is_buy := true, limit_px := "100", sz := "1",
    order_type := "limit", cloid := none }

/-- A concrete order on the unknown symbol `"DOGE"`. -/
def wBadOrder : ClientOrderRequest :=
  { asset := "DOGE", is_buy := true, limit_px := "100", sz := "1",
    order_type := "limit", cloid := none }

/-- A concrete cancel on the known symbol `"ETH"`. -/
def wCancel : ClientCancelRequest := { asset := "ETH", oid := 77 }

/-- A concrete cancel on the unknown symbol `"DOGE"`. -/
def wBadCancel : ClientCancelRequest := { asset := "DOGE", oid := 77 }

/-- The envelope produced by `wClient.bulk_order [wOrder] wClock 0`. -/
def wOrderPayload : ExchangePayload :=
  { action := .order "na"
      [{ asset := 1, is_buy := true, limit_px := "100", sz := "1",
         order_type := "limit", cloid := none }],
    signature :=
      { wallet := wWallet, domain := agent_l1_domain,
        payload := .l1Agent
          { source := "a",
            connection_id := keccak (.tuple [.list [.tuple [.nat 1,
              .bool true, .str "100", .str "1", .str "limit"]], .nat 0,
              .addr Address.zero, .nat 1234]) } },
    nonce := 1234,
    vault_address := none }

/-- The envelope produced by `wClient.bulk_order [] wClock 0`. -/
def wEmptyOrderPayload : ExchangePayload :=
  { action := .order "na" [],
    signature :=
      { wallet := wWallet, domain := agent_l1_domain,
        payload := .l1Agent
          { source := "a",
            connection_id := keccak (.tuple [.list [], .nat 0,
              .addr Address.zero, .nat 1234]) } },
    nonce := 1234,
    vault_address := none }

/-- The envelope produced by `wClient.bulk_cancel [wCancel] wClock 0`. -/
def wCancelPayload : ExchangePayload :=
  { action := .cancel [{ asset := 1, oid := 77 }],
    signature :=
      { wallet := wWallet, domain := agent_l1_domain,
        payload := .l1Agent
          { source := "a",
            connection_id := keccak (.tuple
              [.list [.tuple [.nat 1, .nat 77]],
               .addr Address.zero, .nat 1234]) } },
    nonce := 1234,
    vault_address := none }

/-- The scaled integer computed for the margin amount `1.234567`. -/
def wMarginScaled : Int :=
  asI64 (roundHalfAwayFromZero ((1234567 : Rat) / 1000000 * 1000000))

/-- The envelope produced by
`wClient.update_isolated_margin (1234567 / 1000000) "ETH" wClock 0`. -/
def wMarginPayload : ExchangePayload :=
  { action := .updateIsolatedMargin 1 true wMarginScaled,
    signature :=
      { wallet := wWallet, domain := agent_l1_domain,
        payload := .l1Agent
          { source := "a",
            connection_id := keccak (.tuple [.nat 1, .bool true,
              .int wMarginScaled, .addr Address.zero, .nat 1234]) } },
    nonce := 1234,
    vault_address := none }

/-- The envelope produced by `wClient.usdc_transfer "1" "0xdst" wClock 0`. -/
def wUsdPayload : ExchangePayload :=
  { action := .usdTransfer "Arbitrum"
      { destination := "0xdst", amount := "1", time := 1234 },
    signature :=
      { wallet := wWallet, domain := usd_transfer_domain .HyperliquidMainnet,
        payload := .usdTransfer "0xdst" "1" 1234 },
    nonce := 1234,
    vault_address := none }

/-- The result produced by `wClient.approve_agent 5 wClock 0`. -/
def wAgentResult : String × ExchangePayload :=
  ((h256EncodeHex 5).drop 2,
   { action := .connect "Arbitrum"
       { source := "https://hyperliquid.xyz",
         connection_id := keccak (.addr (Address.derived 5)) }
       (Address.derived 5),
     signature :=
       { wallet := wWallet, domain := agent_mainnet_domain,
         payload := .agentConnect
           { source := "https://hyperliquid.xyz",
             connection_id := keccak (.addr (Address.derived 5)) } },
     nonce := 1234,
     vault_address := none })

/-! ### Helper lemmas about the batch-building loops -/

theorem buildOrderBatch_ok_forall {m : String → Option Nat}
    {os : List ClientOrderRequest} {ts : List HVal}
    {trs : List OrderRequest} (h : buildOrderBatch m os = .ok (ts, trs)) :
    List.Forall₂ (fun o t => o.create_hashable_tuple m = Except.ok t) os ts ∧
    List.Forall₂ (fun o tr => o.convert m = Except.ok tr) os trs := by
  induction os generalizing ts trs with
  | nil =>
    simp only [buildOrderBatch, Except.ok.injEq, Prod.mk.injEq] at h
    obtain ⟨h1, h2⟩ := h
    subst h1; subst h2
    exact ⟨.nil, .nil⟩
  | cons o rest ih =>
    simp only [buildOrderBatch] at h
    split at h
    · exact absurd h (by simp)
    · rename_i t ht
      split at h
      · exact absurd h (by simp)
      · rename_i tr htr
        split at h
        · exact absurd h (by simp)
        · rename_i ts2 trs2 hpr
          obtain ⟨hts, htrs⟩ := ih hpr
          simp only [Except.ok.injEq, Prod.mk.injEq] at h
          obtain ⟨h1, h2⟩ := h
          subst h1; subst h2
          exact ⟨.cons ht hts, .cons htr htrs⟩

theorem buildOrderBatch_error_of_unresolved {m : String → Option Nat}
    {os : List ClientOrderRequest} {o : ClientOrderRequest}
    (hmem : o ∈ os) (hnone : m o.asset = none) :
    buildOrderBatch m os = .error .AssetNotFound := by
  induction os with
  | nil => cases hmem
  | cons a rest ih =>
    rcases List.mem_cons.mp hmem with h | h
    · subst h
      simp only [buildOrderBatch, ClientOrderRequest.create_hashable_tuple,
        hnone]
    · cases ha : m a.asset with
      | none =>
        simp only [buildOrderBatch, ClientOrderRequest.create_hashable_tuple,
          ha]
      | some idx =>
        simp only [buildOrderBatch, ClientOrderRequest.create_hashable_tuple,
          ClientOrderRequest.convert, ha, ih h]

theorem buildCancelBatch_ok_forall {m : String → Option Nat}
    {cls : List ClientCancelRequest} {ts : List HVal}
    {trs : List CancelRequest} (h : buildCancelBatch m cls = .ok (ts, trs)) :
    List.Forall₂ (fun cl t => ∃ asset, m cl.asset = some asset ∧
      t = HVal.tuple [.nat asset, .nat cl.oid]) cls ts ∧
    List.Forall₂ (fun cl tr => ∃ asset, m cl.asset = some asset ∧
      tr = { asset, oid := cl.oid }) cls trs := by
  induction cls generalizing ts trs with
  | nil =>
    simp only [buildCancelBatch, Except.ok.injEq, Prod.mk.injEq] at h
    obtain ⟨h1, h2⟩ := h
    subst h1; subst h2
    exact ⟨.nil, .nil⟩
  | cons cl rest ih =>
    simp only [buildCancelBatch] at h
    split at h
    · exact absurd h (by simp)
    · rename_i asset ha
      split at h
      · exact absurd h (by simp)
      · rename_i ts2 trs2 hpr
        obtain ⟨hts, htrs⟩ := ih hpr
        simp only [Except.ok.injEq, Prod.mk.injEq] at h
        obtain ⟨h1, h2⟩ := h
        subst h1; subst h2
        exact ⟨.cons ⟨asset, ha, rfl⟩ hts, .cons ⟨asset, ha, rfl⟩ htrs⟩

theorem buildCancelBatch_error_of_unresolved {m : String → Option Nat}
    {cls : List ClientCancelRequest} {cl : ClientCancelRequest}
    (hmem : cl ∈ cls) (hnone : m cl.asset = none) :
    buildCancelBatch m cls = .error .AssetNotFound := by
  induction cls with
  | nil => cases hmem
  | cons a rest ih =>
    rcases List.mem_cons.mp hmem with h | h
    · subst h
      simp only [buildCancelBatch, hnone]
    · cases ha : m a.asset with
      | none => simp only [buildCancelBatch, ha]
      | some asset => simp only [buildCancelBatch, ha, ih h]

/-! ### Lemmas about the construction fold of the symbol-to-index map -/

theorem foldl_insertMap_not_mem (ps : List (Nat × Asset))
    (m : String → Option Nat) (k : String)
    (hk : ∀ p ∈ ps, p.2.name ≠ k) :
    (ps.foldl (fun m p => insertMap m p.2.name (p.1 % 2 ^ 32)) m) k = m k := by
  induction ps generalizing m with
  | nil => rfl
  | cons p rest ih =>
    rw [List.foldl_cons, ih _ (fun q hq => hk q (List.mem_cons_of_mem p hq))]
    simp [insertMap, Ne.symm (hk p (List.mem_cons_self p rest))]

theorem foldl_insertMap_mem (ps : List (Nat × Asset))
    (m : String → Option Nat) {i : Nat} {a : Asset}
    (hmem : (i, a) ∈ ps)
    (hnodup : (ps.map (fun p => p.2.name)).Nodup) :
    (ps.foldl (fun m p => insertMap m p.2.name (p.1 % 2 ^ 32)) m) a.name =
      some (i % 2 ^ 32) := by
  induction ps generalizing m with
  | nil => cases hmem
  | cons p rest ih =>
    simp only [List.map_cons, List.nodup_cons] at hnodup
    rw [List.foldl_cons]
    rcases List.mem_cons.mp hmem with h | h
    · have hnin : ∀ q ∈ rest, q.2.name ≠ a.name := by
        intro q hq heq
        exact hnodup.1 (h ▸ heq ▸ List.mem_map_of_mem _ hq)
      rw [foldl_insertMap_not_mem rest _ _ hnin, ← h]
      simp [insertMap]
    · exact ih _ h hnodup.2

/-! ### Hex encoding round-trip -/

theorem hexCharVal_hexDigitChar {d : Nat} (hd : d < 16) :
    hexCharVal (hexDigitChar d) = d := by
  interval_cases d <;> decide

theorem range_map_hexDigits (k : Nat) : ∀ w : Nat,
    (List.range w).map (fun i => hexDigitChar (k / 16 ^ (w - 1 - i) % 16)) =
      hexDigitsAux w k := by
  intro w
  induction w with
  | zero => rfl
  | succ w ih =>
    rw [List.range_succ_eq_map, List.map_cons, List.map_map, hexDigitsAux]
    refine congrArg₂ List.cons (by norm_num) ?_
    rw [← ih]
    refine congrArg (List.map · (List.range w)) ?_
    funext i
    simp only [Function.comp]
    have he : w + 1 - 1 - (i + 1) = w - 1 - i := by omega
    rw [he]

theorem foldl_hexDigitsAux (k : Nat) : ∀ (w acc : Nat),
    (hexDigitsAux w k).foldl (fun acc ch => acc * 16 + hexCharVal ch) acc =
      acc * 16 ^ w + k % 16 ^ w := by
  intro w
  induction w with
  | zero => intro acc; simp [hexDigitsAux, Nat.mod_one]
  | succ w ih =>
    intro acc
    rw [hexDigitsAux, List.foldl_cons, ih,
      hexCharVal_hexDigitChar (Nat.mod_lt _ (by norm_num)),
      pow_succ, Nat.mod_mul]
    ring

theorem h256_hex_fold {k : Nat} (hk : k < 2 ^ 256) :
    ((h256EncodeHex k).drop 2).data.foldl
      (fun acc ch => acc * 16 + hexCharVal ch) 0 = k := by
  have hdata : ((h256EncodeHex k).drop 2).data =
      (List.range 64).map (fun i => hexDigitChar (k / 16 ^ (63 - i) % 16)) := by
    rw [String.data_drop, h256EncodeHex, String.data_append]
    rfl
  have h64 : ∀ i : Nat, 63 - i = 64 - 1 - i := fun i => by omega
  rw [hdata]
  simp only [h64]
  rw [range_map_hexDigits, foldl_hexDigitsAux]
  have h16 : (16 : Nat) ^ 64 = 2 ^ 256 := by
    rw [show (16 : Nat) = 2 ^ 4 from rfl, ← pow_mul]
  rw [h16, Nat.zero_mul, Nat.zero_add, Nat.mod_eq_of_lt hk]

theorem parse_h256_roundtrip {k : Nat} (hk : k < 2 ^ 256) :
    parseLocalWallet ((h256EncodeHex k).drop 2) = .ok ⟨k⟩ := by
  simp only [parseLocalWallet, h256_hex_fold hk]

/-! ### Per-operation success shapes -/

theorem bulk_order_ok_shape {c : ExchangeClient}
    {orders : List ClientOrderRequest} {clock : Nat → Nat} {pos : Nat}
    {p : ExchangePayload} {pos' : Nat}
    (h : c.bulk_order orders clock pos = (.ok p, pos')) :
    ∃ (tuples : List HVal) (trs : List OrderRequest),
      buildOrderBatch c.coin_to_asset orders = .ok (tuples, trs) ∧
      pos' = pos + 1 ∧
      p = c.post (Actions.order "na" trs)
        { wallet := c.wallet, domain := agent_l1_domain,
          payload := .l1Agent
            { source := "a",
              connection_id := keccak (.tuple [.list tuples, .nat 0,
                .addr (c.vault_address.getD Address.zero),
                .nat (clock pos)]) } }
        (clock pos) := by
  simp only [ExchangeClient.bulk_order] at h
  split at h
  · exact absurd h (by simp)
  · rename_i tuples trs hpr
    simp only [sign_l1_action, Prod.mk.injEq, Except.ok.injEq] at h
    exact ⟨tuples, trs, hpr, h.2.symm, h.1.symm⟩

theorem bulk_cancel_ok_shape {c : ExchangeClient}
    {cancels : List ClientCancelRequest} {clock : Nat → Nat} {pos : Nat}
    {p : ExchangePayload} {pos' : Nat}
    (h : c.bulk_cancel cancels clock pos = (.ok p, pos')) :
    ∃ (tuples : List HVal) (trs : List CancelRequest),
      buildCancelBatch c.coin_to_asset cancels = .ok (tuples, trs) ∧
      pos' = pos + 1 ∧
      p = c.post (Actions.cancel trs)
        { wallet := c.wallet, domain := agent_l1_domain,
          payload := .l1Agent
            { source := "a",
              connection_id := keccak (.tuple [.list tuples,
                .addr (c.vault_address.getD Address.zero),
                .nat (clock pos)]) } }
        (clock pos) := by
  simp only [ExchangeClient.bulk_cancel] at h
  split at h
  · exact absurd h (by simp)
  · rename_i tuples trs hpr
    simp only [sign_l1_action, Prod.mk.injEq, Except.ok.injEq] at h
    exact ⟨tuples, trs, hpr, h.2.symm, h.1.symm⟩

theorem update_leverage_ok_shape {c : ExchangeClient} {leverage : Nat}
    {coin : String} {is_cross : Bool} {clock : Nat → Nat} {pos : Nat}
    {p : ExchangePayload} {pos' : Nat}
    (h : c.update_leverage leverage coin is_cross clock pos = (.ok p, pos')) :
    ∃ asset_index : Nat,
      c.coin_to_asset coin = some asset_index ∧
      pos' = pos + 1 ∧
      p = c.post (Actions.updateLeverage asset_index is_cross leverage)
        { wallet := c.wallet, domain := agent_l1_domain,
          payload := .l1Agent
            { source := "a",
              connection_id := keccak (.tuple [.nat asset_index,
                .bool is_cross, .nat leverage,
                .addr (c.vault_address.getD Address.zero),
                .nat (clock pos)]) } }
        (clock pos) := by
  simp only [ExchangeClient.update_leverage] at h
  split at h
  · exact absurd h (by simp)
  · rename_i asset_index ha
    simp only [sign_l1_action, Prod.mk.injEq, Except.ok.injEq] at h
    exact ⟨asset_index, ha, h.2.symm, h.1.symm⟩

theorem update_isolated_margin_ok_shape {c : ExchangeClient} {amount : Rat}
    {coin : String} {clock : Nat → Nat} {pos : Nat}
    {p : ExchangePayload} {pos' : Nat}
    (h : c.update_isolated_margin amount coin clock pos = (.ok p, pos')) :
    ∃ asset_index : Nat,
      c.coin_to_asset coin = some asset_index ∧
      pos' = pos + 1 ∧
      p = c.post (Actions.updateIsolatedMargin asset_index true
          (asI64 (roundHalfAwayFromZero (amount * 1000000))))
        { wallet := c.wallet, domain := agent_l1_domain,
          payload := .l1Agent
            { source := "a",
              connection_id := keccak (.tuple [.nat asset_index, .bool true,
                .int (asI64 (roundHalfAwayFromZero (amount * 1000000))),
                .addr (c.vault_address.getD Address.zero),
                .nat (clock pos)]) } }
        (clock pos) := by
  simp only [ExchangeClient.update_isolated_margin] at h
  split at h
  · exact absurd h (by simp)
  · rename_i asset_index ha
    simp only [sign_l1_action, Prod.mk.injEq, Except.ok.injEq] at h
    exact ⟨asset_index, ha, h.2.symm, h.1.symm⟩

theorem usdc_transfer_ok_shape {c : ExchangeClient}
    {amount destination : String} {clock : Nat → Nat} {pos : Nat}
    {p : ExchangePayload} {pos' : Nat}
    (h : c.usdc_transfer amount destination clock pos = (.ok p, pos')) :
    pos' = pos + 1 ∧
    p = c.post
      (Actions.usdTransfer
        (if c.http_client.base_url = MAINNET_API_URL then "Arbitrum"
         else "ArbitrumGoerli")
        { destination, amount, time := clock pos })
      { wallet := c.wallet,
        domain := usd_transfer_domain
          (if c.http_client.base_url = MAINNET_API_URL then
            .HyperliquidMainnet else .HyperliquidTestnet),
        payload := .usdTransfer destination amount (clock pos) }
      (clock pos) := by
  by_cases hb : c.http_client.base_url = MAINNET_API_URL <;>
    simp only [ExchangeClient.usdc_transfer, sign_usd_transfer_action, hb,
      if_true, if_false, Prod.mk.injEq, Except.ok.injEq] at h <;>
    simp only [hb, if_true, if_false] <;>
    exact ⟨h.2.symm, h.1.symm⟩

theorem approve_agent_ok_shape {c : ExchangeClient} {k : Nat}
    {clock : Nat → Nat} {pos : Nat} {r : String × ExchangePayload}
    {pos' : Nat} (hk : k < 2 ^ 256)
    (h : c.approve_agent k clock pos = (.ok r, pos')) :
    pos' = pos + 1 ∧
    r = ((h256EncodeHex k).drop 2,
      c.post
        (Actions.connect
          (if c.http_client.base_url = MAINNET_API_URL then "Arbitrum"
           else "ArbitrumGoerli")
          { source := "https://hyperliquid.xyz",
            connection_id := keccak (.addr (Address.derived k)) }
          (Address.derived k))
        { wallet := c.wallet,
          domain := agent_domain
            (if c.http_client.base_url = MAINNET_API_URL then
              .HyperliquidMainnet else .HyperliquidTestnet),
          payload := .agentConnect
            { source := "https://hyperliquid.xyz",
              connection_id := keccak (.addr (Address.derived k)) } }
        (clock pos)) := by
  rw [ExchangeClient.approve_agent, parse_h256_roundtrip hk] at h
  by_cases hb : c.http_client.base_url = MAINNET_API_URL <;>
    simp only [sign_with_agent, LocalWallet.address, hb, if_true, if_false,
      Prod.mk.injEq, Except.ok.injEq] at h <;>
    simp only [hb, if_true, if_false] <;>
    exact ⟨h.2.symm, h.1.symm⟩

/-! ### Clock-position lemmas: each operation advances the read position
by exactly one, on success and on failure alike. -/

theorem bulk_order_pos (c : ExchangeClient) (orders : List ClientOrderRequest)
    (clock : Nat → Nat) (pos : Nat) :
    (c.bulk_order orders clock pos).2 = pos + 1 := by
  simp only [ExchangeClient.bulk_order, sign_l1_action]
  split <;> rfl

theorem bulk_cancel_pos (c : ExchangeClient)
    (cancels : List ClientCancelRequest) (clock : Nat → Nat) (pos : Nat) :
    (c.bulk_cancel cancels clock pos).2 = pos + 1 := by
  simp only [ExchangeClient.bulk_cancel, sign_l1_action]
  split <;> rfl

theorem update_leverage_pos (c : ExchangeClient) (leverage : Nat)
    (coin : String) (is_cross : Bool) (clock : Nat → Nat) (pos : Nat) :
    (c.update_leverage leverage coin is_cross clock pos).2 = pos + 1 := by
  simp only [ExchangeClient.update_leverage, sign_l1_action]
  split <;> rfl

theorem update_isolated_margin_pos (c : ExchangeClient) (amount : Rat)
    (coin : String) (clock : Nat → Nat) (pos : Nat) :
    (c.update_isolated_margin amount coin clock pos).2 = pos + 1 := by
  simp only [ExchangeClient.update_isolated_margin, sign_l1_action]
  split <;> rfl

theorem usdc_transfer_pos (c : ExchangeClient) (amount destination : String)
    (clock : Nat → Nat) (pos : Nat) :
    (c.usdc_transfer amount destination clock pos).2 = pos + 1 := rfl

theorem approve_agent_pos (c : ExchangeClient) (k : Nat)
    (clock : Nat → Nat) (pos : Nat) :
    (c.approve_agent k clock pos).2 = pos + 1 := rfl

/-! ### Claim theorems -/

/-- C9: for every single order request `o`, `order o` produces exactly
the same result as `bulk_order [o]`; likewise `cancel c` equals
`bulk_cancel [c]`. -/
theorem order_cancel_singleton_refinement :
    (∀ (c : ExchangeClient) (o : ClientOrderRequest) (clock : Nat → Nat)
       (pos : Nat), c.order o clock pos = c.bulk_order [o] clock pos) ∧
    (∀ (c : ExchangeClient) (cl : ClientCancelRequest) (clock : Nat → Nat)
       (pos : Nat), c.cancel cl clock pos = c.bulk_cancel [cl] clock pos) :=
  ⟨fun _ _ _ _ => rfl, fun _ _ _ _ => rfl⟩

/-- C10: `bulk_order` and `bulk_cancel` called with an empty batch do
not fail with `AssetNotFound`: they hash an empty tuple list, sign it,
and submit an envelope whose orders (respectively cancels) array is
empty. -/
theorem empty_batch_succeeds (c : ExchangeClient) (clock : Nat → Nat)
    (pos : Nat) :
    c.bulk_order [] clock pos =
      (.ok
        { action := .order "na" [],
          signature :=
            { wallet := c.wallet, domain := agent_l1_domain,
              payload := .l1Agent
                { source := "a",
                  connection_id := keccak (.tuple [.list [], .nat 0,
                    .addr (c.vault_address.getD Address.zero),
                    .nat (clock pos)]) } },
          nonce := clock pos,
          vault_address := c.vault_address }, pos + 1) ∧
    c.bulk_cancel [] clock pos =
      (.ok
        { action := .cancel [],
          signature :=
            { wallet := c.wallet, domain := agent_l1_domain,
              payload := .l1Agent
                { source := "a",
                  connection_id := keccak (.tuple [.list [],
                    .addr (c.vault_address.getD Address.zero),
                    .nat (clock pos)]) } },
          nonce := clock pos,
          vault_address := c.vault_address }, pos + 1) :=
  ⟨rfl, rfl⟩

/-- C1: for every bulk order submission, the connection id signed is the
keccak hash of the tuple (list of per-order canonical tuples, grouping
code 0, vault address or the zero address when none is configured, the
call's millisecond timestamp), and the assembled action always carries
grouping `"na"`. -/
theorem bulk_order_connection_id_and_grouping (c : ExchangeClient)
    (orders : List ClientOrderRequest) (clock : Nat → Nat) (pos : Nat)
    (p : ExchangePayload) (pos' : Nat)
    (h : c.bulk_order orders clock pos = (.ok p, pos')) :
    ∃ (tuples : List HVal) (trs : List OrderRequest),
      List.Forall₂
        (fun o t => o.create_hashable_tuple c.coin_to_asset = Except.ok t)
        orders tuples ∧
      p.action = .order "na" trs ∧
      p.signature =
        { wallet := c.wallet, domain := agent_l1_domain,
          payload := .l1Agent
            { source := "a",
              connection_id := keccak (.tuple [.list tuples, .nat 0,
                .addr (c.vault_address.getD Address.zero),
                .nat (clock pos)]) } } := by
  simp only [ExchangeClient.bulk_order] at h
  split at h
  · exact absurd h (by simp)
  · rename_i tuples trs hpr
    obtain ⟨hts, _⟩ := buildOrderBatch_ok_forall hpr
    simp only [sign_l1_action, Prod.mk.injEq, Except.ok.injEq] at h
    obtain ⟨h1, _⟩ := h
    subst h1
    exact ⟨tuples, trs, hts, rfl, rfl⟩

/-- C4: for every bulk cancel submission, each cancel's canonical tuple
is (asset index, order id) and the connection id signed is the keccak
hash of (list of those tuples, vault address, timestamp); and in every
L1 hash input of every operation, an unconfigured vault address is
replaced by the all-zero address rather than being omitted. -/
theorem bulk_cancel_tuples_and_vault_zero_substitution :
    (∀ (c : ExchangeClient) (cancels : List ClientCancelRequest)
       (clock : Nat → Nat) (pos : Nat) (p : ExchangePayload) (pos' : Nat),
      c.bulk_cancel cancels clock pos = (.ok p, pos') →
      ∃ (tuples : List HVal) (trs : List CancelRequest),
        List.Forall₂ (fun cl t => ∃ asset,
          c.coin_to_asset cl.asset = some asset ∧
          t = HVal.tuple [.nat asset, .nat cl.oid]) cancels tuples ∧
        p.action = .cancel trs ∧
        p.signature =
          { wallet := c.wallet, domain := agent_l1_domain,
            payload := .l1Agent
              { source := "a",
                connection_id := keccak (.tuple [.list tuples,
                  .addr (c.vault_address.getD Address.zero),
                  .nat (clock pos)]) } }) ∧
    (∀ c : ExchangeClient, c.vault_address = none →
      (∀ (orders : List ClientOrderRequest) (clock : Nat → Nat)
         (pos : Nat) (p : ExchangePayload) (pos' : Nat),
        c.bulk_order orders clock pos = (.ok p, pos') →
        p.signature.payload.vaultSlot = some Address.zero) ∧
      (∀ (cancels : List ClientCancelRequest) (clock : Nat → Nat)
         (pos : Nat) (p : ExchangePayload) (pos' : Nat),
        c.bulk_cancel cancels clock pos = (.ok p, pos') →
        p.signature.payload.vaultSlot = some Address.zero) ∧
      (∀ (leverage : Nat) (coin : String) (is_cross : Bool)
         (clock : Nat → Nat) (pos : Nat) (p : ExchangePayload) (pos' : Nat),
        c.update_leverage leverage coin is_cross clock pos = (.ok p, pos') →
        p.signature.payload.vaultSlot = some Address.zero) ∧
      (∀ (amount : Rat) (coin : String) (clock : Nat → Nat) (pos : Nat)
         (p : ExchangePayload) (pos' : Nat),
        c.update_isolated_margin amount coin clock pos = (.ok p, pos') →
        p.signature.payload.vaultSlot = some Address.zero)) := by
  constructor
  · intro c cancels clock pos p pos' h
    obtain ⟨tuples, trs, hb, _, hp⟩ := bulk_cancel_ok_shape h
    obtain ⟨hts, _⟩ := buildCancelBatch_ok_forall hb
    subst hp
    exact ⟨tuples, trs, hts, rfl, rfl⟩
  · intro c hnone
    refine ⟨?_, ?_, ?_, ?_⟩
    · intro orders clock pos p pos' h
      obtain ⟨tuples, trs, _, _, hp⟩ := bulk_order_ok_shape h
      subst hp
      simp [ExchangeClient.post, SigPayload.vaultSlot, HVal.vaultSlot, keccak, hnone]
    · intro cancels clock pos p pos' h
      obtain ⟨tuples, trs, _, _, hp⟩ := bulk_cancel_ok_shape h
      subst hp
      simp [ExchangeClient.post, SigPayload.vaultSlot, HVal.vaultSlot, keccak, hnone]
    · intro leverage coin is_cross clock pos p pos' h
      obtain ⟨asset_index, _, _, hp⟩ := update_leverage_ok_shape h
      subst hp
      simp [ExchangeClient.post, SigPayload.vaultSlot, HVal.vaultSlot, keccak, hnone]
    · intro amount coin clock pos p pos' h
      obtain ⟨asset_index, _, _, hp⟩ := update_isolated_margin_ok_shape h
      subst hp
      simp [ExchangeClient.post, SigPayload.vaultSlot, HVal.vaultSlot, keccak, hnone]

/-- C6: for every operation referencing an instrument symbol, if any
symbol in the request (anywhere in a bulk batch) is absent from the
asset index, the call returns the `AssetNotFound` error; no envelope is
produced, so the batch is aborted before any transport call. -/
theorem unresolved_symbol_aborts_before_submission :
    (∀ (c : ExchangeClient) (orders : List ClientOrderRequest)
       (clock : Nat → Nat) (pos : Nat) (o : ClientOrderRequest),
      o ∈ orders → c.coin_to_asset o.asset = none →
      (c.bulk_order orders clock pos).1 = .error .AssetNotFound) ∧
    (∀ (c : ExchangeClient) (cancels : List ClientCancelRequest)
       (clock : Nat → Nat) (pos : Nat) (cl : ClientCancelRequest),
      cl ∈ cancels → c.coin_to_asset cl.asset = none →
      (c.bulk_cancel cancels clock pos).1 = .error .AssetNotFound) ∧
    (∀ (c : ExchangeClient) (leverage : Nat) (coin : String)
       (is_cross : Bool) (clock : Nat → Nat) (pos : Nat),
      c.coin_to_asset coin = none →
      (c.update_leverage leverage coin is_cross clock pos).1 =
        .error .AssetNotFound) ∧
    (∀ (c : ExchangeClient) (amount : Rat) (coin : String)
       (clock : Nat → Nat) (pos : Nat),
      c.coin_to_asset coin = none →
      (c.update_isolated_margin amount coin clock pos).1 =
        .error .AssetNotFound) := by
  refine ⟨?_, ?_, ?_, ?_⟩
  · intro c orders clock pos o hmem hnone
    simp only [ExchangeClient.bulk_order,
      buildOrderBatch_error_of_unresolved hmem hnone]
  · intro c cancels clock pos cl hmem hnone
    simp only [ExchangeClient.bulk_cancel,
      buildCancelBatch_error_of_unresolved hmem hnone]
  · intro c leverage coin is_cross clock pos hnone
    simp only [ExchangeClient.update_leverage, hnone]
  · intro c amount coin clock pos hnone
    simp only [ExchangeClient.update_isolated_margin, hnone]

/-- C5: in every public operation, the millisecond timestamp is read
exactly once per call (the clock position always advances by exactly
one), and the nonce placed in the submitted envelope equals the same
timestamp value used as the hash-input (or typed-data time) field for
that call. -/
theorem timestamp_read_once_and_nonce_consistency :
    (∀ (c : ExchangeClient) (orders : List ClientOrderRequest)
       (clock : Nat → Nat) (pos : Nat),
      (c.bulk_order orders clock pos).2 = pos + 1 ∧
      ∀ (p : ExchangePayload) (pos' : Nat),
        c.bulk_order orders clock pos = (.ok p, pos') →
        p.nonce = clock pos ∧
        ∀ t, p.signature.payload.timeField = some t → t = p.nonce) ∧
    (∀ (c : ExchangeClient) (cancels : List ClientCancelRequest)
       (clock : Nat → Nat) (pos : Nat),
      (c.bulk_cancel cancels clock pos).2 = pos + 1 ∧
      ∀ (p : ExchangePayload) (pos' : Nat),
        c.bulk_cancel cancels clock pos = (.ok p, pos') →
        p.nonce = clock pos ∧
        ∀ t, p.signature.payload.timeField = some t → t = p.nonce) ∧
    (∀ (c : ExchangeClient) (leverage : Nat) (coin : String)
       (is_cross : Bool) (clock : Nat → Nat) (pos : Nat),
      (c.update_leverage leverage coin is_cross clock pos).2 = pos + 1 ∧
      ∀ (p : ExchangePayload) (pos' : Nat),
        c.update_leverage leverage coin is_cross clock pos = (.ok p, pos') →
        p.nonce = clock pos ∧
        ∀ t, p.signature.payload.timeField = some t → t = p.nonce) ∧
    (∀ (c : ExchangeClient) (amount : Rat) (coin : String)
       (clock : Nat → Nat) (pos : Nat),
      (c.update_isolated_margin amount coin clock pos).2 = pos + 1 ∧
      ∀ (p : ExchangePayload) (pos' : Nat),
        c.update_isolated_margin amount coin clock pos = (.ok p, pos') →
        p.nonce = clock pos ∧
        ∀ t, p.signature.payload.timeField = some t → t = p.nonce) ∧
    (∀ (c : ExchangeClient) (amount destination : String)
       (clock : Nat → Nat) (pos : Nat),
      (c.usdc_transfer amount destination clock pos).2 = pos + 1 ∧
      ∀ (p : ExchangePayload) (pos' : Nat),
        c.usdc_transfer amount destination clock pos = (.ok p, pos') →
        p.nonce = clock pos ∧
        ∀ t, p.signature.payload.timeField = some t → t = p.nonce) ∧
    (∀ (c : ExchangeClient) (k : Nat) (clock : Nat → Nat) (pos : Nat),
      (c.approve_agent k clock pos).2 = pos + 1 ∧
      ∀ (r : String × ExchangePayload) (pos' : Nat),
        c.approve_agent k clock pos = (.ok r, pos') →
        r.2.nonce = clock pos ∧
        ∀ t, r.2.signature.payload.timeField = some t → t = r.2.nonce) := by
  refine ⟨?_, ?_, ?_, ?_, ?_, ?_⟩
  · intro c orders clock pos
    refine ⟨bulk_order_pos c orders clock pos, ?_⟩
    intro p pos' h
    obtain ⟨tuples, trs, _, _, hp⟩ := bulk_order_ok_shape h
    subst hp
    refine ⟨rfl, ?_⟩
    intro t ht
    have h2 : some (clock pos) = some t := Eq.trans rfl ht
    exact (Option.some.inj h2).symm
  · intro c cancels clock pos
    refine ⟨bulk_cancel_pos c cancels clock pos, ?_⟩
    intro p pos' h
    obtain ⟨tuples, trs, _, _, hp⟩ := bulk_cancel_ok_shape h
    subst hp
    refine ⟨rfl, ?_⟩
    intro t ht
    have h2 : some (clock pos) = some t := Eq.trans rfl ht
    exact (Option.some.inj h2).symm
  · intro c leverage coin is_cross clock pos
    refine ⟨update_leverage_pos c leverage coin is_cross clock pos, ?_⟩
    intro p pos' h
    obtain ⟨asset_index, _, _, hp⟩ := update_leverage_ok_shape h
    subst hp
    refine ⟨rfl, ?_⟩
    intro t ht
    have h2 : some (clock pos) = some t := Eq.trans rfl ht
    exact (Option.some.inj h2).symm
  · intro c amount coin clock pos
    refine ⟨update_isolated_margin_pos c amount coin clock pos, ?_⟩
    intro p pos' h
    obtain ⟨asset_index, _, _, hp⟩ := update_isolated_margin_ok_shape h
    subst hp
    refine ⟨rfl, ?_⟩
    intro t ht
    have h2 : some (clock pos) = some t := Eq.trans rfl ht
    exact (Option.some.inj h2).symm
  · intro c amount destination clock pos
    refine ⟨usdc_transfer_pos c amount destination clock pos, ?_⟩
    intro p pos' h
    obtain ⟨_, hp⟩ := usdc_transfer_ok_shape h
    subst hp
    refine ⟨rfl, ?_⟩
    intro t ht
    have h2 : some (clock pos) = some t := Eq.trans rfl ht
    exact (Option.some.inj h2).symm
  · intro c k clock pos
    refine ⟨approve_agent_pos c k clock pos, ?_⟩
    intro r pos' h
    simp only [ExchangeClient.approve_agent, parseLocalWallet,
      sign_with_agent, Prod.mk.injEq, Except.ok.injEq] at h
    obtain ⟨h1, _⟩ := h
    subst h1
    exact ⟨rfl, fun t ht => Option.noConfusion ht⟩

/-- C2, counterexample: on a client configured with the mainnet base
URL, the chain id used for L1-action signing is the fixed 1337 — not
42161 as the claim states.  (`sign_l1_action` receives no network
information at its call sites, so its domain cannot depend on the base
URL.) -/
theorem l1_chain_id_on_mainnet_ne_42161 :
    wClient.http_client.base_url = MAINNET_API_URL ∧
    (wClient.bulk_order [] wClock 0).1.map
      (fun p => p.signature.domain.chain_id) = .ok 1337 ∧
    (1337 : Nat) ≠ 42161 :=
  ⟨rfl, rfl, by decide⟩

/-- C2, amended: USD-transfer and agent-connect signing select the
typed-data chain id as a function of the base URL — 42161 when it
equals the mainnet API URL, the distinct non-mainnet 421613 otherwise —
while L1-action signing (orders, cancels, leverage, isolated margin)
always uses the fixed chain id 1337 regardless of the base URL. -/
theorem signing_domain_chain_id_selection :
    (∀ (c : ExchangeClient) (orders : List ClientOrderRequest)
       (clock : Nat → Nat) (pos : Nat) (p : ExchangePayload) (pos' : Nat),
      c.bulk_order orders clock pos = (.ok p, pos') →
      p.signature.domain.chain_id = 1337) ∧
    (∀ (c : ExchangeClient) (cancels : List ClientCancelRequest)
       (clock : Nat → Nat) (pos : Nat) (p : ExchangePayload) (pos' : Nat),
      c.bulk_cancel cancels clock pos = (.ok p, pos') →
      p.signature.domain.chain_id = 1337) ∧
    (∀ (c : ExchangeClient) (leverage : Nat) (coin : String)
       (is_cross : Bool) (clock : Nat → Nat) (pos : Nat)
       (p : ExchangePayload) (pos' : Nat),
      c.update_leverage leverage coin is_cross clock pos = (.ok p, pos') →
      p.signature.domain.chain_id = 1337) ∧
    (∀ (c : ExchangeClient) (amount : Rat) (coin : String)
       (clock : Nat → Nat) (pos : Nat) (p : ExchangePayload) (pos' : Nat),
      c.update_isolated_margin amount coin clock pos = (.ok p, pos') →
      p.signature.domain.chain_id = 1337) ∧
    (∀ (c : ExchangeClient) (amount destination : String)
       (clock : Nat → Nat) (pos : Nat) (p : ExchangePayload) (pos' : Nat),
      c.usdc_transfer amount destination clock pos = (.ok p, pos') →
      p.signature.domain.chain_id =
        if c.http_client.base_url = MAINNET_API_URL then 42161
        else 421613) ∧
    (∀ (c : ExchangeClient) (k : Nat) (clock : Nat → Nat) (pos : Nat)
       (r : String × ExchangePayload) (pos' : Nat),
      c.approve_agent k clock pos = (.ok r, pos') →
      r.2.signature.domain.chain_id =
        if c.http_client.base_url = MAINNET_API_URL then 42161
        else 421613) ∧
    (421613 : Nat) ≠ 42161 := by
  refine ⟨?_, ?_, ?_, ?_, ?_, ?_, by decide⟩
  · intro c orders clock pos p pos' h
    obtain ⟨tuples, trs, _, _, hp⟩ := bulk_order_ok_shape h
    subst hp
    rfl
  · intro c cancels clock pos p pos' h
    obtain ⟨tuples, trs, _, _, hp⟩ := bulk_cancel_ok_shape h
    subst hp
    rfl
  · intro c leverage coin is_cross clock pos p pos' h
    obtain ⟨asset_index, _, _, hp⟩ := update_leverage_ok_shape h
    subst hp
    rfl
  · intro c amount coin clock pos p pos' h
    obtain ⟨asset_index, _, _, hp⟩ := update_isolated_margin_ok_shape h
    subst hp
    rfl
  · intro c amount destination clock pos p pos' h
    obtain ⟨_, hp⟩ := usdc_transfer_ok_shape h
    subst hp
    by_cases hb : c.http_client.base_url = MAINNET_API_URL <;>
      simp [ExchangeClient.post, usd_transfer_domain, hb]
  · intro c k clock pos r pos' h
    simp only [ExchangeClient.approve_agent, parseLocalWallet,
      sign_with_agent, Prod.mk.injEq, Except.ok.injEq] at h
    obtain ⟨h1, _⟩ := h
    subst h1
    by_cases hb : c.http_client.base_url = MAINNET_API_URL <;>
      simp [ExchangeClient.post, agent_domain, agent_mainnet_domain,
        agent_testnet_domain, hb]

/-- C3: `update_isolated_margin` converts the user-facing decimal amount
(modelled as an exact rational in place of the source's `f64`) to the
integer `round(amount * 1_000_000)` with rounding half away from zero —
so `1.234567` maps to `1234567` and `0.0000001` maps to `0` — and its
hash input is (asset index, the fixed flag `true`, that scaled amount,
vault address or zero, timestamp). -/
theorem update_isolated_margin_scaling_and_hash :
    (∀ (c : ExchangeClient) (amount : Rat) (coin : String)
       (clock : Nat → Nat) (pos : Nat) (p : ExchangePayload) (pos' : Nat),
      c.update_isolated_margin amount coin clock pos = (.ok p, pos') →
      ∃ asset_index : Nat,
        c.coin_to_asset coin = some asset_index ∧
        p.action = .updateIsolatedMargin asset_index true
          (asI64 (roundHalfAwayFromZero (amount * 1000000))) ∧
        p.signature =
          { wallet := c.wallet, domain := agent_l1_domain,
            payload := .l1Agent
              { source := "a",
                connection_id := keccak (.tuple [.nat asset_index,
                  .bool true,
                  .int (asI64 (roundHalfAwayFromZero (amount * 1000000))),
                  .addr (c.vault_address.getD Address.zero),
                  .nat (clock pos)]) } }) ∧
    asI64 (roundHalfAwayFromZero ((1234567 : Rat) / 1000000 * 1000000)) =
      1234567 ∧
    asI64 (roundHalfAwayFromZero ((1 : Rat) / 10000000 * 1000000)) = 0 := by
  refine ⟨?_, ?_, ?_⟩
  · intro c amount coin clock pos p pos' h
    obtain ⟨asset_index, ha, _, hp⟩ := update_isolated_margin_ok_shape h
    subst hp
    exact ⟨asset_index, ha, rfl, rfl⟩
  · norm_num [asI64, roundHalfAwayFromZero]
  · norm_num [asI64, roundHalfAwayFromZero]

/-- C7: agent registration derives from the generated random key a
single deterministic address (the returned raw key hex parses back to
that same key), signs with the main wallet a connection id equal to the
keccak hash of that derived address alone, and returns the raw generated
key hex paired with the submission envelope. -/
theorem approve_agent_key_address_connection_id (c : ExchangeClient)
    (k : Nat) (clock : Nat → Nat) (pos : Nat) (hk : k < 2 ^ 256)
    (r : String × ExchangePayload) (pos' : Nat)
    (h : c.approve_agent k clock pos = (.ok r, pos')) :
    r.1 = (h256EncodeHex k).drop 2 ∧
    parseLocalWallet r.1 = .ok ⟨k⟩ ∧
    r.2.action = .connect
      (if c.http_client.base_url = MAINNET_API_URL then "Arbitrum"
       else "ArbitrumGoerli")
      { source := "https://hyperliquid.xyz",
        connection_id := keccak (.addr (Address.derived k)) }
      (Address.derived k) ∧
    r.2.signature =
      { wallet := c.wallet,
        domain := agent_domain
          (if c.http_client.base_url = MAINNET_API_URL then
            .HyperliquidMainnet else .HyperliquidTestnet),
        payload := .agentConnect
          { source := "https://hyperliquid.xyz",
            connection_id := keccak (.addr (Address.derived k)) } } := by
  obtain ⟨_, hr⟩ := approve_agent_ok_shape hk h
  subst hr
  exact ⟨rfl, parse_h256_roundtrip hk, rfl, rfl⟩

/-- C8: the symbol-to-index mapping built at construction sends each
symbol to its zero-based position in the universe's enumeration order
(for a universe of unique symbols within the `u32` index range), fails
on unknown symbols, and is exactly the map the client carries for its
whole lifetime (the pure client record is never mutated afterwards). -/
theorem coin_to_asset_enumeration_order (wallet : LocalWallet)
    (base_url : Option String) (meta : List Asset)
    (vault_address : Option Address)
    (hnodup : (meta.map Asset.name).Nodup)
    (hlen : meta.length < 2 ^ 32) :
    (ExchangeClient.new wallet base_url meta vault_address).coin_to_asset =
      buildCoinToAsset meta ∧
    (∀ (i : Nat) (a : Asset), meta[i]? = some a →
      buildCoinToAsset meta a.name = some i) ∧
    (∀ s : String, (∀ a ∈ meta, a.name ≠ s) →
      buildCoinToAsset meta s = none) := by
  refine ⟨rfl, ?_, ?_⟩
  · intro i a hi
    have hmem : (i, a) ∈ meta.enum := by
      rw [List.mk_mem_enum_iff_getElem?]
      exact hi
    have hnames : (meta.enum.map (fun p => p.2.name)).Nodup := by
      have hm : meta.enum.map (fun p => p.2.name) =
          (meta.enum.map Prod.snd).map Asset.name := by
        rw [List.map_map]
        rfl
      rw [hm, List.enum_map_snd]
      exact hnodup
    have hilt : i < meta.length := (List.getElem?_eq_some.mp hi).1
    have := foldl_insertMap_mem meta.enum (fun _ => none) hmem hnames
    rwa [Nat.mod_eq_of_lt (lt_trans hilt hlen)] at this
  · intro s hs
    have hk : ∀ p ∈ meta.enum, p.2.name ≠ s := by
      intro p hp
      have hp2 : p.2 ∈ meta := by
        have := List.mk_mem_enum_iff_getElem?.mp (by
          have : (p.1, p.2) = p := rfl
          rw [this]
          exact hp)
        exact List.getElem?_mem this
      exact hs p.2 hp2
    exact foldl_insertMap_not_mem meta.enum (fun _ => none) s hk

/-! ### Witnesses: the claim theorems applied at concrete inputs -/

/-- Witness for C1 at a concrete one-order batch on the known symbol. -/
theorem bulk_order_connection_id_and_grouping_witness :
    wClient.bulk_order [wOrder] wClock 0 = (.ok wOrderPayload, 1) ∧
    (∃ (tuples : List HVal) (trs : List OrderRequest),
      List.Forall₂
        (fun o t =>
          o.create_hashable_tuple wClient.coin_to_asset = Except.ok t)
        [wOrder] tuples ∧
      wOrderPayload.action = .order "na" trs ∧
      wOrderPayload.signature =
        { wallet := wClient.wallet, domain := agent_l1_domain,
          payload := .l1Agent
            { source := "a",
              connection_id := keccak (.tuple [.list tuples, .nat 0,
                .addr (wClient.vault_address.getD Address.zero),
                .nat (wClock 0)]) } }) :=
  ⟨rfl, bulk_order_connection_id_and_grouping wClient [wOrder] wClock 0
    wOrderPayload 1 rfl⟩

/-- Witness for the amended C2 at concrete calls on the mainnet-URL
client. -/
theorem signing_domain_chain_id_selection_witness :
    wClient.bulk_order [] wClock 0 = (.ok wEmptyOrderPayload, 1) ∧
    wEmptyOrderPayload.signature.domain.chain_id = 1337 ∧
    wClient.usdc_transfer "1" "0xdst" wClock 0 = (.ok wUsdPayload, 1) ∧
    wUsdPayload.signature.domain.chain_id =
      (if wClient.http_client.base_url = MAINNET_API_URL then 42161
       else 421613) ∧
    wClient.approve_agent 5 wClock 0 = (.ok wAgentResult, 1) ∧
    wAgentResult.2.signature.domain.chain_id =
      (if wClient.http_client.base_url = MAINNET_API_URL then 42161
       else 421613) :=
  ⟨rfl,
   signing_domain_chain_id_selection.1 wClient [] wClock 0
     wEmptyOrderPayload 1 rfl,
   rfl,
   signing_domain_chain_id_selection.2.2.2.2.1 wClient "1" "0xdst" wClock 0
     wUsdPayload 1 rfl,
   rfl,
   signing_domain_chain_id_selection.2.2.2.2.2.1 wClient 5 wClock 0
     wAgentResult 1 rfl⟩

/-- Witness for C3 at the concrete margin amount `1.234567` on the known
symbol. -/
theorem update_isolated_margin_scaling_and_hash_witness :
    wClient.update_isolated_margin ((1234567 : Rat) / 1000000) "ETH"
      wClock 0 = (.ok wMarginPayload, 1) ∧
    (∃ asset_index : Nat,
      wClient.coin_to_asset "ETH" = some asset_index ∧
      wMarginPayload.action = .updateIsolatedMargin asset_index true
        (asI64 (roundHalfAwayFromZero
          ((1234567 : Rat) / 1000000 * 1000000))) ∧
      wMarginPayload.signature =
        { wallet := wClient.wallet, domain := agent_l1_domain,
          payload := .l1Agent
            { source := "a",
              connection_id := keccak (.tuple [.nat asset_index, .bool true,
                .int (asI64 (roundHalfAwayFromZero
                  ((1234567 : Rat) / 1000000 * 1000000))),
                .addr (wClient.vault_address.getD Address.zero),
                .nat (wClock 0)]) } }) :=
  ⟨rfl, update_isolated_margin_scaling_and_hash.1 wClient
    ((1234567 : Rat) / 1000000) "ETH" wClock 0 wMarginPayload 1 rfl⟩

/-- Witness for C4 at a concrete one-cancel batch, on the vault-less
client. -/
theorem bulk_cancel_tuples_and_vault_zero_substitution_witness :
    wClient.bulk_cancel [wCancel] wClock 0 = (.ok wCancelPayload, 1) ∧
    (∃ (tuples : List HVal) (trs : List CancelRequest),
      List.Forall₂ (fun cl t => ∃ asset,
        wClient.coin_to_asset cl.asset = some asset ∧
        t = HVal.tuple [.nat asset, .nat cl.oid]) [wCancel] tuples ∧
      wCancelPayload.action = .cancel trs ∧
      wCancelPayload.signature =
        { wallet := wClient.wallet, domain := agent_l1_domain,
          payload := .l1Agent
            { source := "a",
              connection_id := keccak (.tuple [.list tuples,
                .addr (wClient.vault_address.getD Address.zero),
                .nat (wClock 0)]) } }) ∧
    wClient.vault_address = none ∧
    wCancelPayload.signature.payload.vaultSlot = some Address.zero :=
  ⟨rfl,
   bulk_cancel_tuples_and_vault_zero_substitution.1 wClient [wCancel]
     wClock 0 wCancelPayload 1 rfl,
   rfl,
   (bulk_cancel_tuples_and_vault_zero_substitution.2 wClient rfl).2.1
     [wCancel] wClock 0 wCancelPayload 1 rfl⟩

/-- Witness for C5 at a concrete one-order batch. -/
theorem timestamp_read_once_and_nonce_consistency_witness :
    (wClient.bulk_order [wOrder] wClock 0).2 = 0 + 1 ∧
    wOrderPayload.nonce = wClock 0 ∧
    (1234 : Nat) = wOrderPayload.nonce :=
  ⟨(timestamp_read_once_and_nonce_consistency.1 wClient [wOrder]
      wClock 0).1,
   ((timestamp_read_once_and_nonce_consistency.1 wClient [wOrder]
      wClock 0).2 wOrderPayload 1 rfl).1,
   ((timestamp_read_once_and_nonce_consistency.1 wClient [wOrder]
      wClock 0).2 wOrderPayload 1 rfl).2 1234 rfl⟩

/-- Witness for C6 at concrete requests on the unknown symbol
`"DOGE"`. -/
theorem unresolved_symbol_aborts_before_submission_witness :
    wClient.coin_to_asset "DOGE" = none ∧
    (wClient.bulk_order [wBadOrder] wClock 0).1 = .error .AssetNotFound ∧
    (wClient.bulk_cancel [wBadCancel] wClock 0).1 = .error .AssetNotFound ∧
    (wClient.update_leverage 21 "DOGE" true wClock 0).1 =
      .error .AssetNotFound ∧
    (wClient.update_isolated_margin 2 "DOGE" wClock 0).1 =
      .error .AssetNotFound :=
  ⟨rfl,
   unresolved_symbol_aborts_before_submission.1 wClient [wBadOrder]
     wClock 0 wBadOrder (List.mem_cons_self _ _) rfl,
   unresolved_symbol_aborts_before_submission.2.1 wClient [wBadCancel]
     wClock 0 wBadCancel (List.mem_cons_self _ _) rfl,
   unresolved_symbol_aborts_before_submission.2.2.1 wClient 21 "DOGE"
     true wClock 0 rfl,
   unresolved_symbol_aborts_before_submission.2.2.2 wClient 2 "DOGE"
     wClock 0 rfl⟩

/-- Witness for C7 at the concrete random key 5 on the mainnet-URL
client. -/
theorem approve_agent_key_address_connection_id_witness :
    (5 : Nat) < 2 ^ 256 ∧
    wClient.approve_agent 5 wClock 0 = (.ok wAgentResult, 1) ∧
    (wAgentResult.1 = (h256EncodeHex 5).drop 2 ∧
     parseLocalWallet wAgentResult.1 = .ok ⟨5⟩ ∧
     wAgentResult.2.action = .connect
       (if wClient.http_client.base_url = MAINNET_API_URL then "Arbitrum"
        else "ArbitrumGoerli")
       { source := "https://hyperliquid.xyz",
         connection_id := keccak (.addr (Address.derived 5)) }
       (Address.derived 5) ∧
     wAgentResult.2.signature =
       { wallet := wClient.wallet,
         domain := agent_domain
           (if wClient.http_client.base_url = MAINNET_API_URL then
             .HyperliquidMainnet else .HyperliquidTestnet),
         payload := .agentConnect
           { source := "https://hyperliquid.xyz",
             connection_id := keccak (.addr (Address.derived 5)) } }) :=
  ⟨by norm_num, rfl,
   approve_agent_key_address_connection_id wClient 5 wClock 0
     (by norm_num) wAgentResult 1 rfl⟩

/-- Witness for C8 on the concrete two-asset universe. -/
theorem coin_to_asset_enumeration_order_witness :
    (wMeta.map Asset.name).Nodup ∧
    wMeta.length < 2 ^ 32 ∧
    (ExchangeClient.new wWallet none wMeta none).coin_to_asset =
      buildCoinToAsset wMeta ∧
    buildCoinToAsset wMeta (Asset.name { name := "ETH" }) = some 1 ∧
    buildCoinToAsset wMeta "DOGE" = none :=
  ⟨by decide, by decide,
   (coin_to_asset_enumeration_order wWallet none wMeta none (by decide)
     (by decide)).1,
   (coin_to_asset_enumeration_order wWallet none wMeta none (by decide)
     (by decide)).2.1 1 { name := "ETH" } rfl,
   (coin_to_asset_enumeration_order wWallet none wMeta none (by decide)
     (by decide)).2.2 "DOGE" (by decide)⟩

end Hyperliquid
